import Mathlib

/-!
# Verification of the DccSpeedToolsPC serial state core (`app.py`)

Shallow embedding of the pure/stateful core of `app.py`:

* Decoded CBOR values are modelled by `PyValue`; Python floats are modelled
  by exact rationals `ℚ` (every finite float is a rational, and the only
  float operations the code performs — `is_integer()`, `int(...)`,
  comparison with small integers, exact arithmetic on small values — are
  exact on those rationals).
* A decoded message (a Python dict) is modelled by an association list
  `Msg`; `Msg.get k` models `message.get(k)`, where a missing key and a
  stored CBOR null both surface as an absent value.
* Wall-clock instants (`time.time()`) are modelled by a rational `now`
  passed explicitly to each handler/snapshot; the human-readable
  `*_iso` renderings of those instants are not modelled separately — the
  corresponding `*_at` rational is kept instead.
* `SensorStateStore` becomes the structure `Store`, mutated functionally by
  the per-event handlers; `snapshot` is a pure function of the store and
  the current time.
* The `SerialReader.run` buffering loop is modelled by `drain` (the inner
  `while buffer:` decode loop) and `feedChunks` (the outer read loop),
  generic over the incremental decoder, which in the source is the external
  `cbor2` library.
-/

/-- A Python value as produced by CBOR decoding: booleans, ints, floats
(modelled as exact rationals), strings, arrays, or `None`. -/
inductive PyValue where
  | null : PyValue
  | bool (b : Bool) : PyValue
  | int (n : ℤ) : PyValue
  | float (q : ℚ) : PyValue
  | str (s : String) : PyValue
  | arr (xs : List PyValue) : PyValue

/-- A decoded message: a Python dict with string keys, modelled as an
association list (keys are unique in a dict; lookup takes the first hit). -/
def Msg := List (String × PyValue)

/-- Model of `message.get(k)`: `none` when the key is absent. -/
def Msg.get (m : Msg) (k : String) : Option PyValue :=
  match m.lookup k with
  | some PyValue.null => none
  | some v => some v
  | none => none

/-- The `_sensor_index` int case: `value in (0, 1)`. -/
def sensor_index_int (n : ℤ) : Option ℤ :=
  if n = 0 ∨ n = 1 then some n else none

/-- Model of `_sensor_index(value)` from `app.py`: booleans rejected, ints accepted
iff they are 0 or 1, floats accepted iff `value.is_integer()` (denominator
one) and the recursive call `_sensor_index(int(value))` accepts; anything
else (including an absent value) is `none`. The recursive int call is
rendered through `sensor_index_int`. -/
def sensor_index : Option PyValue → Option ℤ
  | some (PyValue.bool _) => none
  | some (PyValue.int n) => sensor_index_int n
  | some (PyValue.float q) => if q.den = 1 then sensor_index_int q.num else none
  | _ => none

/-- Model of `_sensor_name(index)` from `app.py`. -/
def sensor_name (index : Option ℤ) : String :=
  if index = some 0 then "Sensor 0"
  else if index = some 1 then "Sensor 1"
  else "Sensor"

/-- Python `str.strip()` whitespace (ASCII fragment): space, tab, LF, VT,
FF, CR. -/
def isPySpace (c : Char) : Bool :=
  c.toNat = 32 || c.toNat = 9 || c.toNat = 10 || c.toNat = 11 || c.toNat = 12 || c.toNat = 13

/-- Python `str.strip()`: drop leading and trailing whitespace. -/
def pyStrip (s : String) : String :=
  String.mk (((s.data.dropWhile isPySpace).reverse.dropWhile isPySpace).reverse)

/-- Python `str.lower()` (ASCII fragment): map upper-case letters to
lower case. -/
def pyLowerChar (c : Char) : Char :=
  if 65 ≤ c.toNat && c.toNat ≤ 90 then Char.ofNat (c.toNat + 32) else c

/-- Python `str.lower()`. -/
def pyLower (s : String) : String :=
  String.mk (s.data.map pyLowerChar)

/-- Model of `_sensor_state_from_code(value)` from `app.py`: strings only,
stripped and lowercased; "blk" means blocked, "clr" means clear. -/
def sensor_state_from_code : Option PyValue → Option Bool
  | some (PyValue.str v) =>
    let cleaned := pyLower (pyStrip v)
    if cleaned = "blk" then some true
    else if cleaned = "clr" then some false
    else none
  | _ => none

/-- Model of `_expected_from_start(start_sensor)` from `app.py`. -/
def expected_from_start (start_sensor : Option ℤ) : Option ℤ × Option String :=
  match start_sensor with
  | none => (none, none)
  | some s =>
    let expected_sensor := 1 - s
    let expected_direction := if expected_sensor = 1 then "0->1" else "1->0"
    (some expected_sensor, some expected_direction)

/-- Model of `_to_float(value)` from `app.py`: booleans rejected, ints and floats
converted, anything else absent. -/
def to_float : Option PyValue → Option ℚ
  | some (PyValue.bool _) => none
  | some (PyValue.int n) => some (n : ℚ)
  | some (PyValue.float q) => some q
  | _ => none

/-- Model of `_to_int(value)` from `app.py`: booleans rejected, ints kept, floats
kept iff integral, anything else absent. -/
def to_int : Option PyValue → Option ℤ
  | some (PyValue.bool _) => none
  | some (PyValue.int n) => some n
  | some (PyValue.float q) => if q.den = 1 then some q.num else none
  | _ => none

/-- Python `str(n)` for a natural number: base-10 digits, most significant
first (fuel-driven; the fuel `n + 1` always suffices). -/
def pyNatReprAux : Nat → Nat → List Char → List Char
  | 0, _, acc => acc
  | fuel + 1, n, acc =>
    let acc' := Char.ofNat (48 + n % 10) :: acc
    if n < 10 then acc' else pyNatReprAux fuel (n / 10) acc'

/-- Python `str(n)` for a natural number. -/
def pyNatRepr (n : Nat) : String :=
  String.mk (pyNatReprAux (n + 1) n [])

/-- Python `str(n)` for an integer. -/
def pyIntRepr (n : ℤ) : String :=
  if n < 0 then "-" ++ pyNatRepr n.natAbs else pyNatRepr n.natAbs

/-- An entry accepted by the version/product array formatters: not a bool,
and an int or an integral float; returns the integer `int(entry)`. -/
def pyIntegralEntry : PyValue → Option ℤ
  | PyValue.bool _ => none
  | PyValue.int n => some n
  | PyValue.float q => if q.den = 1 then some q.num else none
  | _ => none

/-- Model of `_format_version_array(value)` from `app.py`: a non-empty list whose
entries are all non-boolean integral numbers is joined by "." after
`str(int(entry))`; anything else is absent. -/
def format_version_array : Option PyValue → Option String
  | some (PyValue.arr xs) =>
    if xs.isEmpty then none
    else
      match xs.mapM pyIntegralEntry with
      | some ns =>
        let parts := ns.map pyIntRepr
        if parts.isEmpty then none else some (String.intercalate "." parts)
      | none => none
  | _ => none

/-- Model of `_format_product_array(value)` from `app.py`: a list with at least three
entries whose first three are non-boolean integral numbers yields
`"Type <v0> Rev <v1>.<v2>"`; anything else is absent. -/
def format_product_array : Option PyValue → Option String
  | some (PyValue.arr xs) =>
    if xs.length < 3 then none
    else
      match (xs.take 3).mapM pyIntegralEntry with
      | some [t, a, b] =>
        some ("Type " ++ pyIntRepr t ++ " Rev " ++ pyIntRepr a ++ "." ++ pyIntRepr b)
      | _ => none
  | _ => none

/-- Model of `_derive_state_label(sensor_1_active, sensor_2_active)` from `app.py`. -/
def derive_state_label (sensor_1_active sensor_2_active : Option Bool) : Option String :=
  if sensor_1_active = some true ∧ sensor_2_active = some true then
    some "Both sensors blocked"
  else if sensor_1_active = some true ∧ sensor_2_active = some false then
    some "Sensor 0 blocked"
  else if sensor_1_active = some false ∧ sensor_2_active = some true then
    some "Sensor 1 blocked"
  else if sensor_1_active = some false ∧ sensor_2_active = some false then
    some "Idle"
  else none

/-- Python truthiness of an `Optional[str]`: `None` and `""` are falsy. -/
def strOptTruthy : Option String → Bool
  | none => false
  | some s => !s.isEmpty

/-- Python truthiness of an `Optional[bool]`: `None` and `False` are falsy. -/
def boolOptTruthy : Option Bool → Bool
  | none => false
  | some b => b

/-- Round to the nearest integer, ties to even (the rounding used by
Python's fixed-point float formatting). -/
def roundHalfEven (q : ℚ) : ℤ :=
  let f := q.floor
  let frac := q - (f : ℚ)
  if frac < 1 / 2 then f
  else if 1 / 2 < frac then f + 1
  else if f % 2 = 0 then f else f + 1

/-- Python `f"{q:.df}"`: fixed-point rendering with `d` decimals. -/
def formatFixed (d : Nat) (q : ℚ) : String :=
  let scaled := roundHalfEven (q * (10 : ℚ) ^ d)
  let sign := if scaled < 0 then "-" else ""
  let a := scaled.natAbs
  let wholeStr := pyNatRepr (a / 10 ^ d)
  let fracRaw := pyNatRepr (a % 10 ^ d)
  let fracStr := String.mk (List.replicate (d - fracRaw.length) (Char.ofNat 48)) ++ fracRaw
  sign ++ wholeStr ++ "." ++ fracStr

/-- Model of `_format_wait_label(expected_sensor, elapsed_s, timeout_s)` from `app.py`. -/
def format_wait_label (expected_sensor : Option ℤ) (elapsed_s timeout_s : Option ℚ) : String :=
  let target := match expected_sensor with
    | some i => sensor_name (some i)
    | none => "second sensor"
  match elapsed_s, timeout_s with
  | some e, some t =>
    "Waiting for " ++ target ++ " (" ++ formatFixed 1 e ++ "s / " ++ formatFixed 1 t ++ "s)"
  | some e, none => "Waiting for " ++ target ++ " (" ++ formatFixed 1 e ++ "s)"
  | none, _ => "Waiting for " ++ target

/-- Model of `_format_timeout_label(elapsed_s)` from `app.py`. -/
def format_timeout_label (elapsed_s : Option ℚ) : String :=
  match elapsed_s with
  | some e => "Timed out after " ++ formatFixed 1 e ++ "s"
  | none => "Timed out waiting for sensor"

/-- Model of `_format_reject_label(dt_us, min_us)` from `app.py` (the `/ 1000`
is exact true division). -/
def format_reject_label (dt_us min_us : Option ℤ) : String :=
  match dt_us, min_us with
  | some dt, some mn =>
    "Transit rejected (" ++ formatFixed 2 ((dt : ℚ) / 1000) ++ " ms < " ++
      formatFixed 2 ((mn : ℚ) / 1000) ++ " ms)"
  | _, _ => "Transit rejected"

/-- Model of `_calc_err_band(mph, err)` from `app.py`. -/
def calc_err_band (mph err : Option ℚ) : Option ℚ × Option ℚ :=
  match mph, err with
  | some m, some e => (some (m - e), some (m + e))
  | _, _ => (none, none)

/-- The constant `FINISH_HOLD_S` from `app.py`. -/
def FINISH_HOLD_S : ℚ := 3

/-- The `Measurement` dataclass from `app.py` (the `received_iso` string is
represented by the underlying `received_at` instant). The `ok` field is
stored raw, exactly as `message.get("ok")` returns it. -/
structure Measurement where
  received_at : ℚ
  ts_us : Option ℤ
  start_sensor : Option ℤ
  end_sensor : Option ℤ
  dt_us : Option ℤ
  mph : Option ℚ
  err : Option ℚ
  err_low : Option ℚ
  err_high : Option ℚ
  ok : Option PyValue

/-- One sensor's merge-accumulated info dict (`_sensor_info[i]`): keys
"driver", "product", "uid", each present or absent. -/
structure SensorInfo where
  driver : Option String
  product : Option String
  uid : Option ℤ
deriving Repr, DecidableEq

/-- The empty info dict `{}`. -/
def SensorInfo.empty : SensorInfo := ⟨none, none, none⟩

/-- Python truthiness of the info dict: `{} or None` in `snapshot`. -/
def SensorInfo.orNone (i : SensorInfo) : Option SensorInfo :=
  if i = SensorInfo.empty then none else some i

/-- The mutable fields of `SensorStateStore` from `app.py`; the
`_received_iso` string is represented by the `received_at` instant. -/
structure Store where
  sensor_active_0 : Option Bool
  sensor_active_1 : Option Bool
  sensor_info_0 : SensorInfo
  sensor_info_1 : SensorInfo
  state_label : Option String
  expected_direction : Option String
  expected_sensor : Option ℤ
  waiting : Option Bool
  last_start_sensor : Option ℤ
  wait_elapsed_s : Option ℚ
  wait_timeout_s : Option ℚ
  finishing_label : Option String
  finishing_until : Option ℚ
  received_at : Option ℚ
  last_measurement : Option Measurement

/-- Model of `SensorStateStore.__init__`: everything unknown/empty. -/
def Store.init : Store :=
  { sensor_active_0 := none
    sensor_active_1 := none
    sensor_info_0 := SensorInfo.empty
    sensor_info_1 := SensorInfo.empty
    state_label := none
    expected_direction := none
    expected_sensor := none
    waiting := none
    last_start_sensor := none
    wait_elapsed_s := none
    wait_timeout_s := none
    finishing_label := none
    finishing_until := none
    received_at := none
    last_measurement := none }

/-- Model of `_mark_update`: stamp the receipt time (`received_at`/`received_iso`). -/
def mark_update (now : ℚ) (s : Store) : Store :=
  { s with received_at := some now }

/-- Model of `_set_finishing(label)`: store the finishing label and the absolute
deadline `now + FINISH_HOLD_S`. -/
def set_finishing (label : String) (now : ℚ) (s : Store) : Store :=
  { s with finishing_label := some label, finishing_until := some (now + FINISH_HOLD_S) }

/-- Model of `self._sensor_active[sensor] = active` for a validated sensor index. -/
def Store.setActive (s : Store) (sensor : ℤ) (active : Option Bool) : Store :=
  if sensor = 0 then { s with sensor_active_0 := active }
  else { s with sensor_active_1 := active }

/-- Model of `_handle_state(message)` from `app.py`. -/
def handle_state (m : Msg) (now : ℚ) (s : Store) : Store :=
  let sensor := sensor_index (m.get "s")
  let active := sensor_state_from_code (m.get "st")
  let label : Option String :=
    match active, sensor with
    | some true, some i => some (sensor_name (some i) ++ " blocked")
    | some false, some i => some (sensor_name (some i) ++ " clear")
    | _, _ => none
  let s1 := match sensor with
    | some i => s.setActive i active
    | none => s
  let s2 :=
    if strOptTruthy label && !boolOptTruthy s1.waiting then
      { s1 with state_label := label }
    else s1
  mark_update now s2

/-- Model of `_handle_start(message)` from `app.py`. -/
def handle_start (m : Msg) (now : ℚ) (s : Store) : Store :=
  let sensor := sensor_index (m.get "s")
  let label := match sensor with
    | some i => "Transit started at " ++ sensor_name (some i)
    | none => "Transit started"
  let ed := expected_from_start sensor
  mark_update now
    { s with
      last_start_sensor := sensor
      waiting := some true
      wait_elapsed_s := none
      wait_timeout_s := none
      expected_sensor := ed.1
      expected_direction := ed.2
      state_label := some label }

/-- Model of `_handle_wait(message)` from `app.py`. -/
def handle_wait (m : Msg) (now : ℚ) (s : Store) : Store :=
  let start_sensor := sensor_index (m.get "f")
  let elapsed_s := to_float (m.get "el")
  let timeout_s := to_float (m.get "to")
  let ed := expected_from_start start_sensor
  let label := format_wait_label ed.1 elapsed_s timeout_s
  mark_update now
    { s with
      last_start_sensor := start_sensor
      waiting := some true
      wait_elapsed_s := elapsed_s
      wait_timeout_s := timeout_s
      expected_sensor := ed.1
      expected_direction := ed.2
      state_label := some label }

/-- Model of `_handle_finish(message)` from `app.py`. -/
def handle_finish (m : Msg) (now : ℚ) (s : Store) : Store :=
  let sensor := sensor_index (m.get "s")
  let label := match sensor with
    | some i => "Transit finished at " ++ sensor_name (some i)
    | none => "Transit finished"
  mark_update now
    { s with
      waiting := some false
      wait_elapsed_s := none
      wait_timeout_s := none
      expected_sensor := none
      expected_direction := none
      state_label := some label }

/-- Model of `_handle_timeout(message)` from `app.py`. -/
def handle_timeout (m : Msg) (now : ℚ) (s : Store) : Store :=
  let elapsed_s := to_float (m.get "el")
  let label := format_timeout_label elapsed_s
  mark_update now
    { s with
      waiting := some false
      wait_elapsed_s := none
      wait_timeout_s := none
      expected_sensor := none
      expected_direction := none
      state_label := some label }

/-- Model of `_handle_reject(message)` from `app.py`. -/
def handle_reject (m : Msg) (now : ℚ) (s : Store) : Store :=
  let dt_us := to_int (m.get "dt")
  let min_us := to_int (m.get "min")
  let label := format_reject_label dt_us min_us
  mark_update now
    { s with
      waiting := some false
      wait_elapsed_s := none
      wait_timeout_s := none
      expected_sensor := none
      expected_direction := none
      state_label := some label }

/-- Model of `_handle_transit(message)` from `app.py`: clears the wait/expected
state and the explicit label, then enters the finishing hold. -/
def handle_transit (_m : Msg) (now : ℚ) (s : Store) : Store :=
  mark_update now
    (set_finishing "Reading complete" now
      { s with
        waiting := some false
        wait_elapsed_s := none
        wait_timeout_s := none
        expected_sensor := none
        expected_direction := none
        state_label := none })

/-- Model of `_handle_sensor_info(message)` from `app.py`: early return when the
sensor index is invalid (note: no `_mark_update` on that path), otherwise
merge the validly-present fields into that sensor's info dict. -/
def handle_sensor_info (m : Msg) (now : ℚ) (s : Store) : Store :=
  match sensor_index (m.get "s") with
  | none => s
  | some sensor =>
    let driver := format_version_array (m.get "drv")
    let product := format_product_array (m.get "prod")
    let uid := to_int (m.get "uid")
    let info := if sensor = 0 then s.sensor_info_0 else s.sensor_info_1
    let info := if strOptTruthy driver then { info with driver := driver } else info
    let info := if strOptTruthy product then { info with product := product } else info
    let info := match uid with
      | some u => { info with uid := some u }
      | none => info
    let s1 :=
      if sensor = 0 then { s with sensor_info_0 := info }
      else { s with sensor_info_1 := info }
    mark_update now s1

/-- Model of `handle_packet(packet_type, message)` from `app.py`: falsy
(`None`/empty) type is ignored, the eight known tags dispatch, any other
tag is silently ignored. -/
def handle_packet (packet_type : Option String) (m : Msg) (now : ℚ) (s : Store) : Store :=
  match packet_type with
  | none => s
  | some t =>
    if t = "" then s
    else if t = "state" then handle_state m now s
    else if t = "start" then handle_start m now s
    else if t = "finish" then handle_finish m now s
    else if t = "wait" then handle_wait m now s
    else if t = "timeout" then handle_timeout m now s
    else if t = "reject" then handle_reject m now s
    else if t = "transit" then handle_transit m now s
    else if t = "sensor" then handle_sensor_info m now s
    else s

/-- The dict returned by `SensorStateStore.snapshot` (the
`state_received_iso` string is represented by the `state_received_at`
instant). -/
structure Snapshot where
  sensor_1_active : Option Bool
  sensor_2_active : Option Bool
  state : Option String
  expected_direction : Option String
  expected_sensor : Option ℤ
  waiting : Option Bool
  finishing : Bool
  state_received_at : Option ℚ
  wait_elapsed_s : Option ℚ
  wait_timeout_s : Option ℚ
  sensor_1_info : Option SensorInfo
  sensor_2_info : Option SensorInfo
  last_measurement : Option Measurement
  last_measurement_age_s : Option ℚ

/-- Model of `SensorStateStore.snapshot` from `app.py`, as a pure function of the
store and the current time: `finishing` is computed lazily from the stored
deadline; while finishing the label falls back from the finishing label,
and expected/waiting are forced absent/false. -/
def Store.snapshot (s : Store) (now : ℚ) : Snapshot :=
  let finishing : Bool :=
    match s.finishing_until with
    | none => false
    | some d => if now < d then true else false
  let label0 : Option String :=
    if finishing then
      if strOptTruthy s.finishing_label then s.finishing_label else s.state_label
    else s.state_label
  let label : Option String :=
    if strOptTruthy label0 then label0
    else derive_state_label s.sensor_active_0 s.sensor_active_1
  { sensor_1_active := s.sensor_active_0
    sensor_2_active := s.sensor_active_1
    state := label
    expected_direction := if finishing then none else s.expected_direction
    expected_sensor := if finishing then none else s.expected_sensor
    waiting := if finishing then some false else s.waiting
    finishing := finishing
    state_received_at := s.received_at
    wait_elapsed_s := s.wait_elapsed_s
    wait_timeout_s := s.wait_timeout_s
    sensor_1_info := s.sensor_info_0.orNone
    sensor_2_info := s.sensor_info_1.orNone
    last_measurement := s.last_measurement
    last_measurement_age_s := s.last_measurement.map (fun mm => now - mm.received_at) }

/-- A routed packet as delivered to `handle_packet`: type tag, message,
and the receipt instant at which the handler runs. -/
def apply_events (evs : List (Option String × Msg × ℚ)) (s : Store) : Store :=
  evs.foldl (fun st e => handle_packet e.1 e.2.1 e.2.2 st) s

/-- Result of one `decoder.decode()` attempt at the buffer head
(`cbor2.CBORDecoder` over a `BytesIO` of the buffer): a decoded message
with the bytes consumed (`stream.tell()`), end of input
(`CBORDecodeEOF`), or a decode error (`CBORDecodeError`). -/
inductive DecResult (μ : Type) where
  | ok (m : μ) (consumed : Nat) : DecResult μ
  | eof : DecResult μ
  | err : DecResult μ

/-- The inner `while buffer:` loop of `SerialReader.run`: decode at the
buffer head; on EOF stop and keep the buffer; on a decode error discard
the entire buffer and stop (flag `true`); on success, if nothing was
consumed stop, else advance by `consumed`, dispatch the message, repeat.
Returns the dispatched messages in order, the remaining buffer, and
whether a decode error occurred. -/
def drain {β μ : Type} (dec : List β → DecResult μ) : List β → List μ × List β × Bool
  | [] => ([], [], false)
  | b :: bs =>
    match dec (b :: bs) with
    | DecResult.eof => ([], b :: bs, false)
    | DecResult.err => ([], [], true)
    | DecResult.ok m c =>
      if _h : c = 0 then ([], b :: bs, false)
      else
        let r := drain dec ((b :: bs).drop c)
        (m :: r.1, r.2.1, r.2.2)
termination_by buf => buf.length
decreasing_by
  simp only [List.length_drop, List.length_cons]
  omega

/-- One iteration of the outer read loop of `SerialReader.run`: an empty
chunk is skipped (`if not chunk: continue`); otherwise the chunk is
appended to the buffer and the inner decode loop runs. The accumulated
message list models the sequence of `_handle_message` dispatches. -/
def feedOne {β μ : Type} (dec : List β → DecResult μ) (st : List μ × List β)
    (chunk : List β) : List μ × List β :=
  if chunk.isEmpty then st
  else
    let r := drain dec (st.2 ++ chunk)
    (st.1 ++ r.1, r.2.1)

/-- Model of `SerialReader.run` over a whole sequence of read chunks, starting from
an empty buffer. -/
def feedChunks {β μ : Type} (dec : List β → DecResult μ) (chunks : List (List β)) :
    List μ × List β :=
  chunks.foldl (feedOne dec) ([], [])

/-- The serial handle as `send_command` sees it. -/
structure SerialPort where
  is_open : Bool

/-- Model of `SerialReader.send_command(payload)` from `app.py`, with the two
exception sources made explicit: `enc` models `cbor2.dumps` (an
`Except`-error models a raised `TypeError`/`ValueError`, which the code
catches) and `write` models `serial.write`+`flush` (an `Except`-error
models a raised `SerialException`, which the code catches). The function
is total: every failure path returns `false`, so no exception reaches
the caller. -/
def send_command (ser : Option SerialPort) (payload : Msg)
    (enc : Msg → Except String (List Nat))
    (write : List Nat → Except String Unit) : Bool :=
  match ser with
  | none => false
  | some sp =>
    if !sp.is_open then false
    else
      match enc payload with
      | Except.error _ => false
      | Except.ok encoded =>
        match write encoded with
        | Except.error _ => false
        | Except.ok _ => true

/-! ## Helper lemmas -/

theorem sensor_index_int_eq (n i : ℤ) (h : sensor_index_int n = some i) :
    i = n ∧ (n = 0 ∨ n = 1) := by
  unfold sensor_index_int at h
  by_cases hn : n = 0 ∨ n = 1
  · simp only [if_pos hn, Option.some.injEq] at h
    exact ⟨h.symm, hn⟩
  · simp [if_neg hn] at h

theorem sensor_index_zero_or_one (v : Option PyValue) (i : ℤ)
    (h : sensor_index v = some i) : i = 0 ∨ i = 1 := by
  match v with
  | none => simp [sensor_index] at h
  | some PyValue.null => simp [sensor_index] at h
  | some (PyValue.bool b) => simp [sensor_index] at h
  | some (PyValue.str t) => simp [sensor_index] at h
  | some (PyValue.arr xs) => simp [sensor_index] at h
  | some (PyValue.int n) =>
    obtain ⟨rfl, hn⟩ := sensor_index_int_eq n i h
    exact hn
  | some (PyValue.float q) =>
    simp only [sensor_index] at h
    by_cases hq : q.den = 1
    · rw [if_pos hq] at h
      obtain ⟨rfl, hn⟩ := sensor_index_int_eq q.num i h
      exact hn
    · simp [if_neg hq] at h

/-! ## C5: sensor-index parsing -/

/-- C5: `_sensor_index` returns a valid sensor id exactly for the integers
0 and 1 and the floats exactly equal to 0.0 and 1.0; every other input
(booleans, other integers, non-integral floats, strings, arrays, null, or
an absent value) yields absent, never a coerced value. -/
theorem sensor_index_exact (v : Option PyValue) (i : ℤ) :
    sensor_index v = some i ↔
      (v = some (PyValue.int 0) ∧ i = 0) ∨ (v = some (PyValue.int 1) ∧ i = 1) ∨
      (v = some (PyValue.float 0) ∧ i = 0) ∨ (v = some (PyValue.float 1) ∧ i = 1) := by
  match v with
  | none => simp [sensor_index]
  | some PyValue.null => simp [sensor_index]
  | some (PyValue.bool b) => simp [sensor_index]
  | some (PyValue.str t) => simp [sensor_index]
  | some (PyValue.arr xs) => simp [sensor_index]
  | some (PyValue.int n) =>
    simp only [sensor_index, sensor_index_int, Option.some.injEq, PyValue.int.injEq,
      reduceCtorEq, false_and, or_false]
    rcases eq_or_ne n 0 with rfl | h0
    · simp [eq_comm]
    · rcases eq_or_ne n 1 with rfl | h1
      · simp [eq_comm]
      · simp [h0, h1, fun h : n = 0 ∨ n = 1 => h.elim h0 h1]
  | some (PyValue.float q) =>
    simp only [sensor_index, sensor_index_int, Option.some.injEq, PyValue.float.injEq,
      reduceCtorEq, false_and, false_or]
    by_cases hq : q.den = 1
    · rw [if_pos hq]
      have hcast : (q.num : ℚ) = q := (Rat.den_eq_one_iff q).mp hq
      have h0 : q = 0 ↔ q.num = 0 := Rat.num_eq_zero.symm
      have h1 : q = 1 ↔ q.num = 1 := by
        rw [← hcast]
        exact_mod_cast Iff.rfl
      rcases eq_or_ne q.num 0 with hn0 | hn0
      · simp [hn0, h0.mpr, Rat.num_eq_zero.mp hn0, eq_comm]
      · rcases eq_or_ne q.num 1 with hn1 | hn1
        · simp [hn1, h1.mpr hn1, eq_comm, h1, hn0]
        · have hq0 : q ≠ 0 := fun h => hn0 (h0.mp h)
          have hq1 : q ≠ 1 := fun h => hn1 (h1.mp h)
          simp [hn0, hn1, hq0, hq1, fun h : q.num = 0 ∨ q.num = 1 => h.elim hn0 hn1]
    · rw [if_neg hq]
      have hq0 : q ≠ 0 := fun h => hq (by rw [h]; rfl)
      have hq1 : q ≠ 1 := fun h => hq (by rw [h]; rfl)
      simp [hq0, hq1]

/-! ## C6: expected sensor/direction derivation -/

/-- C6: for a start sensor in {0, 1} the derived expected sensor is
`1 - s` and the expected direction is "0->1" exactly when the expected
sensor is 1, else "1->0"; for an absent start sensor both are absent. -/
theorem expected_from_start_spec :
    expected_from_start (some 0) = (some 1, some "0->1") ∧
    expected_from_start (some 1) = (some 0, some "1->0") ∧
    expected_from_start none = (none, none) := by
  refine ⟨?_, ?_, rfl⟩ <;> simp [expected_from_start]

/-! ## C7: send_command never throws, bool result -/

/-- C7: `send_command` returns a boolean (the model exhibits it as a total
function — each exception the underlying calls can raise is caught and
turned into `false`) and it returns `true` exactly when the channel
exists and is open, the payload encodes, and the write succeeds; in every
other case it returns `false`. -/
theorem send_command_spec (ser : Option SerialPort) (payload : Msg)
    (enc : Msg → Except String (List Nat)) (write : List Nat → Except String Unit) :
    send_command ser payload enc write = true ↔
      (∃ sp, ser = some sp ∧ sp.is_open = true) ∧
      (∃ bytes, enc payload = Except.ok bytes ∧ write bytes = Except.ok ()) := by
  cases ser with
  | none => simp [send_command]
  | some sp =>
    cases hop : sp.is_open with
    | false => simp [send_command, hop]
    | true =>
      cases henc : enc payload with
      | error e => simp [send_command, hop, henc]
      | ok bytes =>
        cases hw : write bytes with
        | error e => simp [send_command, hop, henc, hw]
        | ok u => cases u; simp [send_command, hop, henc, hw]

/-! ## C4: handlers and the last-updated timestamp -/

/-- C4 counterexample: a "sensor" info event whose sensor index is absent
(here: the empty message, received at time 5, on the freshly initialised
store) does not update the stored last-updated timestamp — the handler
returns before `_mark_update`, so `received_at` stays `none` instead of
becoming `some 5`. -/
theorem sensor_info_skips_mark_update :
    (handle_sensor_info ([] : Msg) 5 Store.init).received_at = none := rfl

/-- C4 (amended): the seven handlers for state, start, finish, wait,
timeout, reject and transit update the stored last-updated timestamp for
every input message; the sensor-info handler updates it exactly when the
message carries a valid sensor index, and leaves it unchanged otherwise. -/
theorem handlers_mark_update (m : Msg) (now : ℚ) (s : Store) :
    (handle_state m now s).received_at = some now ∧
    (handle_start m now s).received_at = some now ∧
    (handle_finish m now s).received_at = some now ∧
    (handle_wait m now s).received_at = some now ∧
    (handle_timeout m now s).received_at = some now ∧
    (handle_reject m now s).received_at = some now ∧
    (handle_transit m now s).received_at = some now ∧
    (handle_sensor_info m now s).received_at =
      (match sensor_index (m.get "s") with
       | some _ => some now
       | none => s.received_at) := by
  refine ⟨rfl, rfl, rfl, rfl, rfl, rfl, rfl, ?_⟩
  cases hs : sensor_index (m.get "s") with
  | none => simp [handle_sensor_info, hs]
  | some i =>
    simp [handle_sensor_info, hs, mark_update]

/-! ## C10: state event with unrecognised state code -/

/-- C10: a "state" event with a valid sensor index but a state code that
does not normalise to "blk" or "clr" (so `_sensor_state_from_code` yields
absent) sets that sensor's stored active flag to unknown — overwriting any
previous value — leaves the other sensor's flag alone, and leaves the
stored state label unchanged. -/
theorem state_unknown_code (m : Msg) (now : ℚ) (s : Store) (i : ℤ)
    (hs : sensor_index (m.get "s") = some i)
    (hst : sensor_state_from_code (m.get "st") = none) :
    ((handle_state m now s).sensor_active_0 =
        if i = 0 then none else s.sensor_active_0) ∧
    ((handle_state m now s).sensor_active_1 =
        if i = 0 then s.sensor_active_1 else none) ∧
    (handle_state m now s).state_label = s.state_label := by
  simp only [handle_state, hs, hst, mark_update, Store.setActive, strOptTruthy,
    Bool.false_and, Bool.false_eq_true, if_false]
  by_cases h0 : i = 0
  · simp [h0]
  · simp [h0]

/-- C10 witness: the concrete message `{"s": 0, "st": "open"}` on a store
whose sensor-0 flag is known blocked and whose label is "Idle". -/
def exStore10 : Store :=
  { Store.init with sensor_active_0 := some true, state_label := some "Idle" }

theorem state_unknown_code_witness :
    ((handle_state [("s", PyValue.int 0), ("st", PyValue.str "open")] 2 exStore10).sensor_active_0 =
        if (0 : ℤ) = 0 then none else exStore10.sensor_active_0) ∧
    ((handle_state [("s", PyValue.int 0), ("st", PyValue.str "open")] 2 exStore10).sensor_active_1 =
        if (0 : ℤ) = 0 then exStore10.sensor_active_1 else none) ∧
    (handle_state [("s", PyValue.int 0), ("st", PyValue.str "open")] 2 exStore10).state_label =
      exStore10.state_label :=
  state_unknown_code [("s", PyValue.int 0), ("st", PyValue.str "open")] 2 exStore10 0
    (by rfl) (by rfl)

/-! ## C9: derived label in snapshot -/

/-- C9: a snapshot taken while not finishing and with no explicit label
stored derives its label from the two sensor flags: both blocked → "Both
sensors blocked"; exactly one blocked → that sensor's name + " blocked";
both clear → "Idle"; any flag unknown → no label. -/
theorem snapshot_derived_label (s : Store) (now : ℚ)
    (hfin : (Store.snapshot s now).finishing = false)
    (hlab : s.state_label = none) :
    (Store.snapshot s now).state =
      (match s.sensor_active_0, s.sensor_active_1 with
       | some true, some true => some "Both sensors blocked"
       | some true, some false => some "Sensor 0 blocked"
       | some false, some true => some "Sensor 1 blocked"
       | some false, some false => some "Idle"
       | _, _ => none) := by
  have hfin' : (match s.finishing_until with
      | none => false
      | some d => if now < d then true else false) = false := hfin
  simp only [Store.snapshot, hfin', hlab, Bool.false_eq_true, if_false, strOptTruthy]
  rcases h0 : s.sensor_active_0 with _ | b0 <;> rcases h1 : s.sensor_active_1 with _ | b1
  · simp [derive_state_label]
  · cases b1 <;> simp [derive_state_label]
  · cases b0 <;> simp [derive_state_label]
  · cases b0 <;> cases b1 <;> simp [derive_state_label]

/-- C9 witness: sensor 0 blocked, sensor 1 clear, no stored label, no
finishing deadline, read at time 5. -/
def exStore9 : Store :=
  { Store.init with sensor_active_0 := some true, sensor_active_1 := some false }

theorem snapshot_derived_label_witness :
    (Store.snapshot exStore9 5).state = some "Sensor 0 blocked" :=
  snapshot_derived_label exStore9 5 (by rfl) (by rfl)

/-! ## C8: sensor-info merge -/

theorem pyNatReprAux_le (fuel n : Nat) (acc : List Char) :
    acc.length ≤ (pyNatReprAux fuel n acc).length := by
  induction fuel generalizing n acc with
  | zero => simp [pyNatReprAux]
  | succ f ih =>
    simp only [pyNatReprAux]
    split
    · simp
    · exact le_trans (by simp) (ih (n / 10) (Char.ofNat (48 + n % 10) :: acc))

theorem pyNatRepr_pos (n : Nat) : 0 < (pyNatRepr n).length := by
  show 0 < (pyNatReprAux (n + 1) n []).length
  simp only [pyNatReprAux]
  split
  · simp
  · exact lt_of_lt_of_le (by simp) (pyNatReprAux_le _ _ _)

theorem pyIntRepr_pos (n : ℤ) : 0 < (pyIntRepr n).length := by
  unfold pyIntRepr
  split
  · simp only [String.length_append]
    have := pyNatRepr_pos n.natAbs
    omega
  · exact pyNatRepr_pos n.natAbs

theorem ne_empty_of_length_pos {s : String} (h : 0 < s.length) : s ≠ "" := by
  intro he
  rw [he] at h
  simp at h

theorem intercalate_go_le (sep acc : String) (xs : List String) :
    acc.length ≤ (String.intercalate.go acc sep xs).length := by
  induction xs generalizing acc with
  | nil => simp [String.intercalate.go]
  | cons a as ih =>
    simp only [String.intercalate.go]
    calc acc.length ≤ (acc ++ sep ++ a).length := by
          simp only [String.length_append]
          omega
      _ ≤ _ := ih _

theorem format_version_array_ne_empty (v : Option PyValue) (d : String)
    (h : format_version_array v = some d) : d ≠ "" := by
  match v with
  | none => simp [format_version_array] at h
  | some PyValue.null => simp [format_version_array] at h
  | some (PyValue.bool _) => simp [format_version_array] at h
  | some (PyValue.int _) => simp [format_version_array] at h
  | some (PyValue.float _) => simp [format_version_array] at h
  | some (PyValue.str _) => simp [format_version_array] at h
  | some (PyValue.arr xs) =>
    simp only [format_version_array] at h
    cases he : xs.isEmpty with
    | true => rw [he] at h; simp at h
    | false =>
      rw [he] at h
      simp only [Bool.false_eq_true, if_false] at h
      cases hm : xs.mapM pyIntegralEntry with
      | none => rw [hm] at h; simp at h
      | some ns =>
        rw [hm] at h
        cases ns with
        | nil => simp at h
        | cons n ns' =>
          simp only [List.map_cons, List.isEmpty_cons, Bool.false_eq_true, if_false,
            Option.some.injEq] at h
          subst h
          apply ne_empty_of_length_pos
          have h1 : (String.intercalate "." (pyIntRepr n :: ns'.map pyIntRepr)).length
              ≥ (pyIntRepr n).length := by
            simp only [String.intercalate]
            exact intercalate_go_le _ _ _
          have h2 := pyIntRepr_pos n
          omega

theorem format_product_array_ne_empty (v : Option PyValue) (p : String)
    (h : format_product_array v = some p) : p ≠ "" := by
  match v with
  | none => simp [format_product_array] at h
  | some PyValue.null => simp [format_product_array] at h
  | some (PyValue.bool _) => simp [format_product_array] at h
  | some (PyValue.int _) => simp [format_product_array] at h
  | some (PyValue.float _) => simp [format_product_array] at h
  | some (PyValue.str _) => simp [format_product_array] at h
  | some (PyValue.arr xs) =>
    simp only [format_product_array] at h
    split at h
    · simp at h
    · split at h
      case _ t a b _ =>
        simp only [Option.some.injEq] at h
        subst h
        apply ne_empty_of_length_pos
        simp only [String.length_append]
        have : ("Type " : String).length = 5 := rfl
        omega
      case _ => simp at h

theorem strOptTruthy_format_version (v : Option PyValue) :
    strOptTruthy (format_version_array v) = (format_version_array v).isSome := by
  cases h : format_version_array v with
  | none => rfl
  | some d =>
    have hd : d.isEmpty = false := by
      rw [← Bool.not_eq_true, String.isEmpty_iff]
      exact format_version_array_ne_empty v d h
    simp [strOptTruthy, hd]

theorem strOptTruthy_format_product (v : Option PyValue) :
    strOptTruthy (format_product_array v) = (format_product_array v).isSome := by
  cases h : format_product_array v with
  | none => rfl
  | some p =>
    have hp : p.isEmpty = false := by
      rw [← Bool.not_eq_true, String.isEmpty_iff]
      exact format_product_array_ne_empty v p h
    simp [strOptTruthy, hp]

/-- C8: a "sensor" info event with a valid sensor index overwrites exactly
the validly-present cached fields (driver, product, uid) of that sensor's
info cache; a field absent or failing validation keeps its previous value,
the other sensor's cache is untouched, and every other store field except
the last-updated timestamp is unchanged. -/
theorem sensor_info_merge (m : Msg) (now : ℚ) (s : Store) (i : ℤ)
    (hs : sensor_index (m.get "s") = some i) :
    ((if i = 0 then (handle_sensor_info m now s).sensor_info_0
      else (handle_sensor_info m now s).sensor_info_1).driver =
        match format_version_array (m.get "drv") with
        | some d => some d
        | none => (if i = 0 then s.sensor_info_0 else s.sensor_info_1).driver) ∧
    ((if i = 0 then (handle_sensor_info m now s).sensor_info_0
      else (handle_sensor_info m now s).sensor_info_1).product =
        match format_product_array (m.get "prod") with
        | some p => some p
        | none => (if i = 0 then s.sensor_info_0 else s.sensor_info_1).product) ∧
    ((if i = 0 then (handle_sensor_info m now s).sensor_info_0
      else (handle_sensor_info m now s).sensor_info_1).uid =
        match to_int (m.get "uid") with
        | some u => some u
        | none => (if i = 0 then s.sensor_info_0 else s.sensor_info_1).uid) ∧
    (if i = 0 then (handle_sensor_info m now s).sensor_info_1 = s.sensor_info_1
     else (handle_sensor_info m now s).sensor_info_0 = s.sensor_info_0) ∧
    (handle_sensor_info m now s).sensor_active_0 = s.sensor_active_0 ∧
    (handle_sensor_info m now s).sensor_active_1 = s.sensor_active_1 ∧
    (handle_sensor_info m now s).state_label = s.state_label ∧
    (handle_sensor_info m now s).expected_direction = s.expected_direction ∧
    (handle_sensor_info m now s).expected_sensor = s.expected_sensor ∧
    (handle_sensor_info m now s).waiting = s.waiting ∧
    (handle_sensor_info m now s).last_start_sensor = s.last_start_sensor ∧
    (handle_sensor_info m now s).wait_elapsed_s = s.wait_elapsed_s ∧
    (handle_sensor_info m now s).wait_timeout_s = s.wait_timeout_s ∧
    (handle_sensor_info m now s).finishing_label = s.finishing_label ∧
    (handle_sensor_info m now s).finishing_until = s.finishing_until ∧
    (handle_sensor_info m now s).last_measurement = s.last_measurement := by
  simp only [handle_sensor_info, hs, mark_update, strOptTruthy_format_version,
    strOptTruthy_format_product]
  rcases sensor_index_zero_or_one _ _ hs with rfl | rfl <;>
    cases hd : format_version_array (m.get "drv") <;>
    cases hp : format_product_array (m.get "prod") <;>
    cases hu : to_int (m.get "uid") <;>
    simp [hd, hp, hu]

/-- C8 witness message: sensor 1, a valid driver array [1, 2, 3], no
product array, uid 7. -/
def exMsg8 : Msg :=
  [("s", PyValue.int 1),
   ("drv", PyValue.arr [PyValue.int 1, PyValue.int 2, PyValue.int 3]),
   ("uid", PyValue.int 7)]

/-- C8 witness store: sensor 1 already has a driver and a product cached. -/
def exStore8 : Store :=
  { Store.init with sensor_info_1 := ⟨some "9.9", some "Type 1 Rev 0.0", none⟩ }

theorem sensor_info_merge_witness :
    ((if (1 : ℤ) = 0 then (handle_sensor_info exMsg8 3 exStore8).sensor_info_0
      else (handle_sensor_info exMsg8 3 exStore8).sensor_info_1).driver =
        match format_version_array (exMsg8.get "drv") with
        | some d => some d
        | none => (if (1 : ℤ) = 0 then exStore8.sensor_info_0
            else exStore8.sensor_info_1).driver) ∧
    ((if (1 : ℤ) = 0 then (handle_sensor_info exMsg8 3 exStore8).sensor_info_0
      else (handle_sensor_info exMsg8 3 exStore8).sensor_info_1).product =
        match format_product_array (exMsg8.get "prod") with
        | some p => some p
        | none => (if (1 : ℤ) = 0 then exStore8.sensor_info_0
            else exStore8.sensor_info_1).product) :=
  ⟨(sensor_info_merge exMsg8 3 exStore8 1 (by rfl)).1,
   (sensor_info_merge exMsg8 3 exStore8 1 (by rfl)).2.1⟩

/-! ## C1: the finishing hold after a transit event -/

theorem handle_state_until (m : Msg) (t : ℚ) (s : Store) :
    (handle_state m t s).finishing_until = s.finishing_until := by
  simp only [handle_state, mark_update, Store.setActive]
  split <;> split <;> (try split) <;> rfl

theorem handle_sensor_info_until (m : Msg) (t : ℚ) (s : Store) :
    (handle_sensor_info m t s).finishing_until = s.finishing_until := by
  simp only [handle_sensor_info, mark_update]
  split
  · rfl
  · split <;> rfl

theorem handle_transit_until (m : Msg) (t : ℚ) (s : Store) :
    (handle_transit m t s).finishing_until = some (t + FINISH_HOLD_S) := rfl

theorem handle_packet_until (pt : Option String) (m : Msg) (t : ℚ) (s : Store)
    (h : pt ≠ some "transit") :
    (handle_packet pt m t s).finishing_until = s.finishing_until := by
  cases pt with
  | none => rfl
  | some t0 =>
    simp only [handle_packet]
    split_ifs with h1 h2 h3 h4 h5 h6 h7 h8 h9
    · rfl
    · exact handle_state_until m t s
    · rfl
    · rfl
    · rfl
    · rfl
    · rfl
    · exact absurd (by rw [h8]) h
    · exact handle_sensor_info_until m t s
    · rfl

theorem apply_events_until_ge (T : ℚ) (evs : List (Option String × Msg × ℚ)) :
    ∀ s : Store, (∀ e ∈ evs, T ≤ e.2.2) →
      (∃ d, s.finishing_until = some d ∧ T + FINISH_HOLD_S ≤ d) →
      ∃ d, (apply_events evs s).finishing_until = some d ∧ T + FINISH_HOLD_S ≤ d := by
  induction evs with
  | nil => exact fun s _ h => h
  | cons e rest ih =>
    intro s hT h
    simp only [apply_events, List.foldl_cons] at *
    apply ih
    · exact fun e' he' => hT e' (List.mem_cons_of_mem e he')
    · by_cases he : e.1 = some "transit"
      · refine ⟨e.2.2 + FINISH_HOLD_S, ?_, ?_⟩
        · rw [he]
          rfl
        · have := hT e (List.mem_cons_self e rest)
          linarith
      · obtain ⟨d, hd, hTd⟩ := h
        exact ⟨d, by rw [handle_packet_until _ _ _ _ he, hd], hTd⟩

theorem apply_events_until_no_transit (evs : List (Option String × Msg × ℚ)) :
    ∀ s : Store, (∀ e ∈ evs, e.1 ≠ some "transit") →
      (apply_events evs s).finishing_until = s.finishing_until := by
  induction evs with
  | nil => exact fun s _ => rfl
  | cons e rest ih =>
    intro s h
    simp only [apply_events, List.foldl_cons] at *
    rw [ih _ (fun e' he' => h e' (List.mem_cons_of_mem e he')),
      handle_packet_until _ _ _ _ (h e (List.mem_cons_self e rest))]

theorem snapshot_finishing_true (s : Store) (now d : ℚ)
    (hd : s.finishing_until = some d) (h : now < d) :
    (Store.snapshot s now).finishing = true ∧
    (Store.snapshot s now).expected_direction = none ∧
    (Store.snapshot s now).expected_sensor = none ∧
    (Store.snapshot s now).waiting = some false := by
  simp [Store.snapshot, hd, h]

theorem snapshot_finishing_false (s : Store) (now d : ℚ)
    (hd : s.finishing_until = some d) (h : d ≤ now) :
    (Store.snapshot s now).finishing = false := by
  simp [Store.snapshot, hd, not_lt.mpr h]

/-- C1: after a "transit" event received at time T, every snapshot taken
with now ∈ [T, T + 3.0) reports finishing = true and forces
expected_direction/expected_sensor to absent and waiting to false,
regardless of any events received since (at times ≥ T); and if no later
transit event arrived, every snapshot with now ≥ T + 3.0 reports
finishing = false. -/
theorem transit_finishing_window (s0 : Store) (m : Msg) (T : ℚ)
    (evs : List (Option String × Msg × ℚ)) (hT : ∀ e ∈ evs, T ≤ e.2.2) :
    (∀ now, T ≤ now → now < T + FINISH_HOLD_S →
      ((apply_events evs (handle_transit m T s0)).snapshot now).finishing = true ∧
      ((apply_events evs (handle_transit m T s0)).snapshot now).expected_direction = none ∧
      ((apply_events evs (handle_transit m T s0)).snapshot now).expected_sensor = none ∧
      ((apply_events evs (handle_transit m T s0)).snapshot now).waiting = some false) ∧
    ((∀ e ∈ evs, e.1 ≠ some "transit") → ∀ now, T + FINISH_HOLD_S ≤ now →
      ((apply_events evs (handle_transit m T s0)).snapshot now).finishing = false) := by
  constructor
  · intro now _h1 h2
    obtain ⟨d, hd, hTd⟩ := apply_events_until_ge T evs (handle_transit m T s0) hT
      ⟨T + FINISH_HOLD_S, handle_transit_until m T s0, le_refl _⟩
    exact snapshot_finishing_true _ now d hd (lt_of_lt_of_le h2 hTd)
  · intro hnt now hge
    have hd : (apply_events evs (handle_transit m T s0)).finishing_until
        = some (T + FINISH_HOLD_S) := by
      rw [apply_events_until_no_transit evs _ hnt, handle_transit_until]
    exact snapshot_finishing_false _ now _ hd hge

/-- C1 witness events: a "start" event for sensor 0 received at time 1,
inside the finishing window opened at time 0. -/
def exEvs1 : List (Option String × Msg × ℚ) :=
  [(some "start", ([("s", PyValue.int 0)] : Msg), (1 : ℚ))]

theorem transit_finishing_window_witness :
    (((apply_events exEvs1 (handle_transit [] 0 Store.init)).snapshot 1).finishing = true ∧
     ((apply_events exEvs1 (handle_transit [] 0 Store.init)).snapshot 1).waiting = some false) ∧
    ((apply_events exEvs1 (handle_transit [] 0 Store.init)).snapshot 4).finishing = false := by
  have h := transit_finishing_window Store.init [] 0 exEvs1 (by decide)
  have hA := h.1 1 (by simp) (by simp [FINISH_HOLD_S])
  exact ⟨⟨hA.1, hA.2.2.2⟩, h.2 (by decide) 4 (by simp only [FINISH_HOLD_S, zero_add]; decide)⟩

/-! ## C2/C3: chunk-boundary invariance and corrupt-frame handling -/

theorem drain_nil {β μ : Type} (dec : List β → DecResult μ) :
    drain dec [] = ([], [], false) := by
  rw [drain]

theorem drain_cons_eof {β μ : Type} (dec : List β → DecResult μ) (b : β) (bs : List β)
    (h : dec (b :: bs) = DecResult.eof) : drain dec (b :: bs) = ([], b :: bs, false) := by
  rw [drain]
  simp [h]

theorem drain_cons_err {β μ : Type} (dec : List β → DecResult μ) (b : β) (bs : List β)
    (h : dec (b :: bs) = DecResult.err) : drain dec (b :: bs) = ([], [], true) := by
  rw [drain]
  simp [h]

theorem drain_cons_ok {β μ : Type} (dec : List β → DecResult μ) (b : β) (bs : List β)
    (m : μ) (c : Nat) (h : dec (b :: bs) = DecResult.ok m c) (hc : c ≠ 0) :
    drain dec (b :: bs) = (m :: (drain dec ((b :: bs).drop c)).1,
      (drain dec ((b :: bs).drop c)).2.1, (drain dec ((b :: bs).drop c)).2.2) := by
  rw [drain]
  simp [h, hc]

theorem drain_append {β μ : Type} (dec : List β → DecResult μ)
    (hok : ∀ b m c, dec b = DecResult.ok m c →
      0 < c ∧ c ≤ b.length ∧ ∀ ext, dec (b ++ ext) = DecResult.ok m c) :
    ∀ (n : Nat) (b1 : List β), b1.length ≤ n → (drain dec b1).2.2 = false →
      ∀ b2 : List β,
      drain dec (b1 ++ b2) =
        ((drain dec b1).1 ++ (drain dec ((drain dec b1).2.1 ++ b2)).1,
          (drain dec ((drain dec b1).2.1 ++ b2)).2.1,
          (drain dec ((drain dec b1).2.1 ++ b2)).2.2) := by
  intro n
  induction n with
  | zero =>
    intro b1 hlen _hne b2
    have hb : b1 = [] := List.eq_nil_of_length_eq_zero (Nat.le_zero.mp hlen)
    subst hb
    rw [drain_nil]
    simp
  | succ n ih =>
    intro b1 hlen hne b2
    match b1 with
    | [] =>
      rw [drain_nil]
      simp
    | x :: xs =>
      cases hdec : dec (x :: xs) with
      | eof =>
        rw [drain_cons_eof dec x xs hdec]
        simp
      | err =>
        rw [drain_cons_err dec x xs hdec] at hne
        simp at hne
      | ok m c =>
        obtain ⟨hc0, hcle, hext⟩ := hok _ _ _ hdec
        have hcne : c ≠ 0 := Nat.pos_iff_ne_zero.mp hc0
        have h1 := drain_cons_ok dec x xs m c hdec hcne
        have hd2 : dec (x :: (xs ++ b2)) = DecResult.ok m c := by
          have := hext b2
          rwa [List.cons_append] at this
        have hdrop : (x :: (xs ++ b2)).drop c = (x :: xs).drop c ++ b2 := by
          rw [← List.cons_append]
          exact List.drop_append_of_le_length hcle
        have h2 := drain_cons_ok dec x (xs ++ b2) m c hd2 hcne
        have hlen2 : ((x :: xs).drop c).length ≤ n := by
          simp only [List.length_drop, List.length_cons]
          simp only [List.length_cons] at hlen
          omega
        have hne2 : (drain dec ((x :: xs).drop c)).2.2 = false := by
          rw [h1] at hne
          exact hne
        have ih2 := ih ((x :: xs).drop c) hlen2 hne2 b2
        rw [List.cons_append, h2, hdrop, ih2, h1]
        simp

theorem drain_append_err {β μ : Type} (dec : List β → DecResult μ)
    (hok : ∀ b m c, dec b = DecResult.ok m c →
      0 < c ∧ c ≤ b.length ∧ ∀ ext, dec (b ++ ext) = DecResult.ok m c)
    (herr : ∀ b ext, dec b = DecResult.err → dec (b ++ ext) = DecResult.err) :
    ∀ (n : Nat) (b1 : List β), b1.length ≤ n → (drain dec b1).2.2 = true →
      ∀ b2 : List β, (drain dec (b1 ++ b2)).2.2 = true := by
  intro n
  induction n with
  | zero =>
    intro b1 hlen hne b2
    have hb : b1 = [] := List.eq_nil_of_length_eq_zero (Nat.le_zero.mp hlen)
    subst hb
    rw [drain_nil] at hne
    simp at hne
  | succ n ih =>
    intro b1 hlen hne b2
    match b1 with
    | [] =>
      rw [drain_nil] at hne
      simp at hne
    | x :: xs =>
      cases hdec : dec (x :: xs) with
      | eof =>
        rw [drain_cons_eof dec x xs hdec] at hne
        simp at hne
      | err =>
        have hd2 : dec (x :: (xs ++ b2)) = DecResult.err := by
          have := herr (x :: xs) b2 hdec
          rwa [List.cons_append] at this
        rw [List.cons_append, drain_cons_err dec x (xs ++ b2) hd2]
      | ok m c =>
        obtain ⟨hc0, hcle, hext⟩ := hok _ _ _ hdec
        have hcne : c ≠ 0 := Nat.pos_iff_ne_zero.mp hc0
        have h1 := drain_cons_ok dec x xs m c hdec hcne
        have hd2 : dec (x :: (xs ++ b2)) = DecResult.ok m c := by
          have := hext b2
          rwa [List.cons_append] at this
        have hdrop : (x :: (xs ++ b2)).drop c = (x :: xs).drop c ++ b2 := by
          rw [← List.cons_append]
          exact List.drop_append_of_le_length hcle
        have h2 := drain_cons_ok dec x (xs ++ b2) m c hd2 hcne
        have hlen2 : ((x :: xs).drop c).length ≤ n := by
          simp only [List.length_drop, List.length_cons]
          simp only [List.length_cons] at hlen
          omega
        have hne2 : (drain dec ((x :: xs).drop c)).2.2 = true := by
          rw [h1] at hne
          exact hne
        rw [List.cons_append, h2, hdrop]
        exact ih ((x :: xs).drop c) hlen2 hne2 b2

theorem feed_invariant {β μ : Type} (dec : List β → DecResult μ)
    (hok : ∀ b m c, dec b = DecResult.ok m c →
      0 < c ∧ c ≤ b.length ∧ ∀ ext, dec (b ++ ext) = DecResult.ok m c)
    (herr : ∀ b ext, dec b = DecResult.err → dec (b ++ ext) = DecResult.err) :
    ∀ (chunks : List (List β)) (pfx : List β) (msgs : List μ) (buf : List β),
      drain dec pfx = (msgs, buf, false) →
      (drain dec (pfx ++ chunks.flatten)).2.2 = false →
      chunks.foldl (feedOne dec) (msgs, buf) =
        ((drain dec (pfx ++ chunks.flatten)).1, (drain dec (pfx ++ chunks.flatten)).2.1) := by
  intro chunks
  induction chunks with
  | nil =>
    intro pfx msgs buf hpfx _hnoerr
    simp only [List.foldl_nil, List.flatten_nil, List.append_nil]
    rw [hpfx]
  | cons c cs ih =>
    intro pfx msgs buf hpfx hnoerr
    simp only [List.foldl_cons, List.flatten_cons]
    simp only [List.flatten_cons] at hnoerr
    by_cases hc : c.isEmpty
    · have hcnil : c = [] := List.isEmpty_iff.mp hc
      subst hcnil
      have hskip : feedOne dec (msgs, buf) [] = (msgs, buf) := by
        simp [feedOne]
      rw [hskip]
      have := ih pfx msgs buf hpfx (by simpa using hnoerr)
      simpa using this
    · have hfo : feedOne dec (msgs, buf) c =
          (msgs ++ (drain dec (buf ++ c)).1, (drain dec (buf ++ c)).2.1) := by
        simp [feedOne, hc]
      have hcomp := drain_append dec hok pfx.length pfx le_rfl (by rw [hpfx]) c
      rw [hpfx] at hcomp
      have hp1 : (drain dec (pfx ++ c)).2.2 = false := by
        by_contra hcon
        have htrue : (drain dec (pfx ++ c)).2.2 = true := by
          revert hcon
          cases (drain dec (pfx ++ c)).2.2 <;> simp
        have h2 := drain_append_err dec hok herr (pfx ++ c).length (pfx ++ c)
          le_rfl htrue cs.flatten
        rw [List.append_assoc] at h2
        rw [hnoerr] at h2
        exact Bool.false_ne_true h2
      have hbufc : (drain dec (buf ++ c)).2.2 = false := by
        rw [hcomp] at hp1
        exact hp1
      have hpfx2 : drain dec (pfx ++ c) =
          (msgs ++ (drain dec (buf ++ c)).1, (drain dec (buf ++ c)).2.1, false) := by
        rw [hcomp, hbufc]
      rw [hfo]
      have hrest := ih (pfx ++ c) (msgs ++ (drain dec (buf ++ c)).1)
        ((drain dec (buf ++ c)).2.1) hpfx2 (by rw [List.append_assoc]; exact hnoerr)
      rw [List.append_assoc] at hrest
      exact hrest

/-- C2: for every byte stream and every chunking of it, feeding the chunks
to the `SerialReader.run` buffering loop yields exactly the messages (and
final buffer) of decoding the whole stream at once, provided the whole
stream decodes without a decode error. The incremental decoder `dec`
(externally `cbor2`) is characterised by the two properties of a
self-describing length-implicit format: a successful decode consumes a
positive prefix and is unaffected by appended bytes, and a decode error is
unaffected by appended bytes. -/
theorem chunk_boundary_invariance {β μ : Type} (dec : List β → DecResult μ)
    (chunks : List (List β))
    (hok : ∀ b m c, dec b = DecResult.ok m c →
      0 < c ∧ c ≤ b.length ∧ ∀ ext, dec (b ++ ext) = DecResult.ok m c)
    (herr : ∀ b ext, dec b = DecResult.err → dec (b ++ ext) = DecResult.err)
    (hnoerr : (drain dec chunks.flatten).2.2 = false) :
    feedChunks dec chunks =
      ((drain dec chunks.flatten).1, (drain dec chunks.flatten).2.1) := by
  have h := feed_invariant dec hok herr chunks [] [] [] (drain_nil dec) (by simpa using hnoerr)
  simpa [feedChunks] using h

/-- C3: when the decode attempt at the head of a non-empty buffer raises a
decode error, the inner loop discards the entire pending buffer (not just
the corrupt prefix) and stops; the outer loop continues, and decoding
resumes exactly on the newly arriving bytes. -/
theorem corrupt_frame_discard {β μ : Type} (dec : List β → DecResult μ) (buf : List β)
    (hne : buf ≠ []) (hdec : dec buf = DecResult.err) :
    drain dec buf = ([], [], true) ∧
    ∀ (msgs : List μ) (c : List β),
      feedOne dec (msgs, (drain dec buf).2.1) c =
        (msgs ++ (drain dec c).1, (drain dec c).2.1) := by
  obtain ⟨x, xs, rfl⟩ := List.exists_cons_of_ne_nil hne
  have h1 := drain_cons_err dec x xs hdec
  refine ⟨h1, ?_⟩
  intro msgs c
  rw [h1]
  by_cases hc : c.isEmpty
  · have hcnil : c = [] := List.isEmpty_iff.mp hc
    subst hcnil
    simp [feedOne, drain_nil]
  · simp [feedOne, hc]

/-- A concrete self-describing decoder for the witnesses: the head byte is
the payload length, the message is the payload, a head byte of 255 is a
decode error, and a buffer shorter than the announced frame is
end-of-input. -/
def lenDec : List Nat → DecResult (List Nat)
  | [] => DecResult.eof
  | b :: bs =>
    if b = 255 then DecResult.err
    else if bs.length < b then DecResult.eof
    else DecResult.ok (bs.take b) (b + 1)

theorem lenDec_ok (b : List Nat) (m : List Nat) (c : Nat)
    (h : lenDec b = DecResult.ok m c) :
    0 < c ∧ c ≤ b.length ∧ ∀ ext, lenDec (b ++ ext) = DecResult.ok m c := by
  match b with
  | [] => simp [lenDec] at h
  | x :: xs =>
    simp only [lenDec] at h
    by_cases hx : x = 255
    · simp [hx] at h
    · rw [if_neg hx] at h
      by_cases hlt : xs.length < x
      · simp [hlt] at h
      · rw [if_neg hlt] at h
        obtain ⟨hm, hc⟩ := by
          simpa using h
        subst hm
        subst hc
        refine ⟨Nat.succ_pos x, by simp; omega, ?_⟩
        intro ext
        simp only [List.cons_append, lenDec, if_neg hx]
        rw [if_neg (by simp; omega)]
        rw [List.take_append_of_le_length (by omega)]

theorem lenDec_err (b ext : List Nat) (h : lenDec b = DecResult.err) :
    lenDec (b ++ ext) = DecResult.err := by
  match b with
  | [] => simp [lenDec] at h
  | x :: xs =>
    simp only [lenDec] at h
    by_cases hx : x = 255
    · simp [List.cons_append, lenDec, hx]
    · rw [if_neg hx] at h
      by_cases hlt : xs.length < x
      · simp [hlt] at h
      · simp [if_neg hlt] at h

/-- C2 witness: the stream [2, 7, 8, 0] (a two-byte frame [7, 8] followed
by an empty frame) split as [2] / [7, 8] / [0]. -/
theorem chunk_boundary_invariance_witness :
    feedChunks lenDec [[2], [7, 8], [0]] =
      ((drain lenDec [[2], [7, 8], [0]].flatten).1,
        (drain lenDec [[2], [7, 8], [0]].flatten).2.1) :=
  chunk_boundary_invariance lenDec [[2], [7, 8], [0]] lenDec_ok lenDec_err
    (by simp [drain, lenDec])

/-- C3 witness: a corrupt head byte (255) discards the whole buffer and a
subsequent chunk [1, 9] is decoded from scratch. -/
theorem corrupt_frame_discard_witness :
    drain lenDec [255, 3, 7] = ([], [], true) ∧
    feedOne lenDec ([], (drain lenDec [255, 3, 7]).2.1) [1, 9] =
      ([] ++ (drain lenDec [1, 9]).1, (drain lenDec [1, 9]).2.1) := by
  have h := corrupt_frame_discard lenDec [255, 3, 7] (by simp) (by rfl)
  exact ⟨h.1, h.2 [] [1, 9]⟩
